import Mathlib

/-!
# Verification of `folder_to_carray.py`

A shallow embedding of the repository's single script, which walks a
directory and emits a C definitions file and a header file embedding every
file's bytes as hex-escaped string-literal arrays, plus a lookup table.

Bytes are modelled as `Fin 256` (Python `bytes` elements are 0..255), file
system interaction as an explicit environment record, and the program as a
pure function from that environment to an outcome (exit code, stdout text,
written files).
-/

namespace FolderToCArray

/-- Concatenation of a list of strings (the script builds its output by
repeated string concatenation / sequential writes to the same stream). -/
def strConcat : List String → String
  | [] => ""
  | s :: rest => s ++ strConcat rest

theorem data_append (s t : String) : (s ++ t).data = s.data ++ t.data := by
  cases s; cases t; rfl

theorem strConcat_data (L : List String) :
    (strConcat L).data = (L.map String.data).flatten := by
  induction L with
  | nil => rfl
  | cons s rest ih => simp [strConcat, data_append, ih]

/-- Lowercase hex digit for `n < 16`, as produced by Python's `x` format
(digits `0`-`9` then letters `a`-`f`). -/
def hexDig (n : Nat) : Char :=
  if n < 10 then Char.ofNat (48 + n) else Char.ofNat (87 + n)

/-- `f"\\x{b:02x}"` — the four-character escape `\xHH` for byte `b`.
Since `b < 256`, the `02x` format yields exactly two hex digits:
the high nibble `b / 16` and the low nibble `b % 16`. -/
def escString (b : Fin 256) : String :=
  "\\x" ++ String.mk [hexDig (b.val / 16), hexDig (b.val % 16)]

/-- Loop of `file_to_c_array` (source lines 65-72): `line` starts as `"`,
each byte appends its escape, and the line is flushed every time
`(i + 1) % 16 == 0`; a non-empty remainder is flushed at the end.  Here we
track only the bytes accumulated in the current line (the opening quote and
the escapes are rendered by `lineText`). -/
def hexLinesGo : List (Fin 256) → Nat → List (Fin 256) → List (List (Fin 256))
  | [], _, line => if line = [] then [] else [line]
  | b :: rest, i, line =>
      if (i + 1) % 16 = 0 then (line ++ [b]) :: hexLinesGo rest (i + 1) []
      else hexLinesGo rest (i + 1) (line ++ [b])

/-- The groups of bytes emitted, one per output line, for a file's data. -/
def hexLines (data : List (Fin 256)) : List (List (Fin 256)) :=
  hexLinesGo data 0 []

/-- One flushed line: `f_c.write(line + '"\n')` where `line` began as `"`
and accumulated the escapes of its bytes. -/
def lineText (l : List (Fin 256)) : String :=
  "\"" ++ strConcat (l.map escString) ++ "\"" ++ "\n"

/-- `len(data)` — the value rendered into the `<name>_len` constant. -/
def arrayLen (data : List (Fin 256)) : Nat := data.length

/-- `file_to_c_array(file_path, array_name, f_c)` (source lines 56-75):
the full text appended to the definitions file for one input file. -/
def file_to_c_array (file_path array_name : String) (data : List (Fin 256)) :
    String :=
  "// File: " ++ file_path ++ "\n" ++
  "const unsigned char " ++ array_name ++ "[] = \n" ++
  strConcat ((hexLines data).map lineText) ++
  ";\n" ++
  "const unsigned int " ++ array_name ++ "_len = " ++
    toString (arrayLen data) ++ ";\n\n"

/-! ### Basic structure of the emitted hex literal -/

/-- The bytes of all emitted lines, concatenated, are the pending line
followed by the remaining data (so no byte is lost or duplicated). -/
theorem hexLinesGo_join (data : List (Fin 256)) :
    ∀ (i : Nat) (line : List (Fin 256)),
      (hexLinesGo data i line).flatten = line ++ data := by
  induction data with
  | nil =>
      intro i line
      by_cases h : line = [] <;> simp [hexLinesGo, h]
  | cons b rest ih =>
      intro i line
      by_cases h : (i + 1) % 16 = 0 <;> simp [hexLinesGo, h, ih]

theorem hexLines_join (data : List (Fin 256)) :
    (hexLines data).flatten = data := by
  simpa using hexLinesGo_join data 0 []

/-- Every emitted line is non-empty and holds at most 16 bytes, provided the
pending line length agrees with the byte index modulo 16 (the loop
invariant: the line is reset exactly at multiples of 16). -/
theorem hexLinesGo_sizes (data : List (Fin 256)) :
    ∀ (i : Nat) (line : List (Fin 256)), line.length = i % 16 →
      ∀ l ∈ hexLinesGo data i line, 0 < l.length ∧ l.length ≤ 16 := by
  induction data with
  | nil =>
      intro i line hinv l hl
      by_cases h : line = []
      · simp [hexLinesGo, h] at hl
      · simp [hexLinesGo, h] at hl
        subst hl
        refine ⟨List.length_pos.mpr h, ?_⟩
        have : i % 16 < 16 := Nat.mod_lt _ (by omega)
        omega
  | cons b rest ih =>
      intro i line hinv l hl
      by_cases h : (i + 1) % 16 = 0
      · simp [hexLinesGo, h] at hl
        rcases hl with hl | hl
        · subst hl
          have : i % 16 < 16 := Nat.mod_lt _ (by omega)
          simp [List.length_append]
          omega
        · exact ih (i + 1) [] (by simp [h]) l hl
      · simp [hexLinesGo, h] at hl
        refine ih (i + 1) (line ++ [b]) ?_ l hl
        simp [List.length_append, hinv]
        omega

/-- Every line except possibly the last holds exactly 16 bytes (under the
same loop invariant). -/
theorem hexLinesGo_full (data : List (Fin 256)) :
    ∀ (i : Nat) (line : List (Fin 256)), line.length = i % 16 →
      ∀ l ∈ (hexLinesGo data i line).dropLast, l.length = 16 := by
  induction data with
  | nil =>
      intro i line hinv l hl
      by_cases h : line = [] <;> simp [hexLinesGo, h] at hl
  | cons b rest ih =>
      intro i line hinv l hl
      by_cases h : (i + 1) % 16 = 0
      · rw [hexLinesGo, if_pos h] at hl
        rcases hrec : hexLinesGo rest (i + 1) [] with _ | ⟨r, rs⟩
        · simp [hrec] at hl
        · rw [hrec, List.dropLast_cons_of_ne_nil (by simp)] at hl
          rcases List.mem_cons.mp hl with hl | hl
          · subst hl
            simp [List.length_append, hinv]
            omega
          · have := ih (i + 1) [] (by simp [h])
            rw [hrec] at this
            exact this l hl
      · simp only [hexLinesGo, h, if_neg h] at hl
        refine ih (i + 1) (line ++ [b]) ?_ l hl
        simp [List.length_append, hinv]
        omega

/-! ### Decoding the emitted literal

The decoder below implements the C-language reading of the emitted text:
each output line is a quoted segment, and inside a segment every byte is a
four-character escape `\xHH` whose value is `16 * H + L` for hex nibbles
`H`, `L`.  It is the inverse direction of the spec's round-trip property;
it is not part of the source script. -/

/-- Numeric value of a lowercase hex digit character, if it is one. -/
def hexVal (c : Char) : Option Nat :=
  if '0' ≤ c ∧ c ≤ '9' then some (c.toNat - 48)
  else if 'a' ≤ c ∧ c ≤ 'f' then some (c.toNat - 87)
  else none

/-- Decode the interior of a quoted segment: a sequence of `\xHH` escapes
terminated by the closing quote and the newline. -/
def decodeSeg : List Char → Option (List Nat)
  | [] => none
  | c :: rest =>
      if c = '"' then
        if rest = ['\n'] then some [] else none
      else if c = '\\' then
        match rest with
        | x :: h :: lo :: rest2 =>
            if x = 'x' then
              match hexVal h, hexVal lo, decodeSeg rest2 with
              | some hv, some lv, some tail => some ((16 * hv + lv) :: tail)
              | _, _, _ => none
            else none
        | _ => none
      else none

/-- Decode one emitted line: an opening quote, then the segment interior. -/
def decodeLine (s : String) : Option (List Nat) :=
  match s.data with
  | c :: rest => if c = '"' then decodeSeg rest else none
  | [] => none

/-- Decode the whole emitted literal: the concatenation of the decodings of
its lines. -/
def decodeLiteral : List String → Option (List Nat)
  | [] => some []
  | s :: rest =>
      match decodeLine s, decodeLiteral rest with
      | some bs, some tail => some (bs ++ tail)
      | _, _ => none

theorem hexVal_hexDig (n : Nat) (h : n < 16) : hexVal (hexDig n) = some n := by
  interval_cases n <;> decide

theorem escString_data (b : Fin 256) :
    (escString b).data = ['\\', 'x', hexDig (b.val / 16), hexDig (b.val % 16)] :=
  rfl

/-- Decoding the escapes of a byte group, followed by the closing `"` and
newline, recovers exactly the group's byte values. -/
theorem decodeSeg_escapes (l : List (Fin 256)) :
    decodeSeg (((l.map escString).map String.data).flatten ++ ['\"', '\n']) =
      some (l.map Fin.val) := by
  induction l with
  | nil => simp [decodeSeg]
  | cons b t ih =>
      have hhi : b.val / 16 < 16 := by omega
      have hlo : b.val % 16 < 16 := by omega
      have hq : ¬ ('\\' : Char) = '"' := by decide
      have ih2 := ih
      simp only [List.map_map] at ih2
      simp only [List.map_cons, List.flatten_cons, escString_data,
        List.cons_append, List.append_assoc]
      rw [decodeSeg]
      simp [hq, hexVal_hexDig _ hhi, hexVal_hexDig _ hlo, ih2,
        Nat.div_add_mod]

/-- Decoding one emitted line recovers exactly its bytes. -/
theorem decodeLine_lineText (l : List (Fin 256)) :
    decodeLine (lineText l) = some (l.map Fin.val) := by
  have hdata : (lineText l).data =
      '"' :: (((l.map escString).map String.data).flatten ++ ['\"', '\n']) := by
    simp [lineText, data_append, strConcat_data]
  have hd := decodeSeg_escapes l
  simp only [List.map_map] at hd
  rw [decodeLine]
  simp [hdata, hd]

/-- Decoding all emitted lines recovers the concatenation of their bytes. -/
theorem decodeLiteral_lines (lines : List (List (Fin 256))) :
    decodeLiteral (lines.map lineText) = some (lines.flatten.map Fin.val) := by
  induction lines with
  | nil => rfl
  | cons l rest ih =>
      simp only [List.map_cons, decodeLiteral, decodeLine_lineText l, ih,
        List.flatten_cons, List.map_append]

/-! ### Identifier sanitization and mime guessing -/

/-- Python `str.replace(a, b)` for a single-character pattern substitutes
every occurrence of that character, which is exactly a character map. -/
def replaceChar (a b : Char) (s : List Char) : List Char :=
  s.map (fun c => if c = a then b else c)

/-- `to_c_identifier(path)` (source lines 43-50): the chain
`path.replace("/", "_").replace("\\", "_").replace("-", "_").replace(".", "_")`. -/
def to_c_identifier (path : String) : String :=
  String.mk
    (replaceChar '.' '_'
      (replaceChar '-' '_'
        (replaceChar '\\' '_'
          (replaceChar '/' '_' path.data))))

/-- `rel_path = os.path.relpath(...).replace("\\", "/")` (source line 100):
the normalization applied to the environment-computed relative path. -/
def normalizeSlashes (s : String) : String :=
  String.mk (replaceChar '\\' '/' s.data)

/-- `guess_mime_type` (source lines 52-54), over an oracle `g` standing for
`mimetypes.guess_type`: the guessed type, else the fixed fallback. -/
def guess_mime_type (g : String → Option String) (file_path : String) :
    String :=
  match g file_path with
  | some mime => mime
  | none => "application/octet-stream"

/-! ### Table assembly -/

/-- One element of the `file_entries` list built during traversal
(source line 109): `(rel_path, array_name, mime_type)`. -/
structure FileEntry where
  relPath : String
  arrayName : String
  mimeType : String
deriving DecidableEq, Repr

/-- One row of the `embedded_files` initializer: the four C initializer
fields `{"/rel", name, name_len, "mime"}` (source lines 113-120). -/
structure Row where
  uri : String
  sym : String
  lenRef : String
  contentType : String
deriving DecidableEq, Repr

/-- The unconditional row written for an entry (source lines 114-116). -/
def primaryRow (fe : FileEntry) : Row :=
  { uri := "/" ++ fe.relPath
    sym := fe.arrayName
    lenRef := fe.arrayName ++ "_len"
    contentType := fe.mimeType }

/-- The rows written for one entry: the primary row, then, when the
relative path is exactly `index.html`, the extra `/` row (source
lines 113-120). -/
def rowsFor (fe : FileEntry) : List Row :=
  primaryRow fe ::
    (if fe.relPath = "index.html" then
      [{ uri := "/"
         sym := fe.arrayName
         lenRef := fe.arrayName ++ "_len"
         contentType := fe.mimeType }]
     else [])

/-- All rows of the `embedded_files` initializer, in emission order. -/
def tableRows (fes : List FileEntry) : List Row :=
  fes.flatMap rowsFor

/-- The value of the emitted
`sizeof(embedded_files) / sizeof(embedded_files[0])` expression
(source line 122): in C it evaluates to the element count of the
`embedded_files` initializer, i.e. the number of rows. -/
def embedded_files_count (fes : List FileEntry) : Nat :=
  (tableRows fes).length

/-- Rendering of one table row (source lines 114-120). -/
def rowText (r : Row) : String :=
  "    \x7b\"" ++ r.uri ++ "\", " ++ r.sym ++ ", " ++ r.lenRef ++
    ", \"" ++ r.contentType ++ "\"\x7d,\n"

/-- The table literal written after traversal (source lines 112-121). -/
def tableText (fes : List FileEntry) : String :=
  "embedded_file_t embedded_files[] = \x7b\n" ++
  strConcat ((tableRows fes).map rowText) ++
  "\x7d;\n\n"

/-- The count line written after the table (source line 122). -/
def countLine : String :=
  "int embedded_files_count = sizeof(embedded_files) / sizeof(embedded_files[0]);\n"

/-! ### The whole program -/

/-- One file yielded by `os.walk`: its full path, its relative path as
computed by `os.path.relpath(full_path, input_folder)` (before the
backslash normalization of source line 100), and its raw bytes. -/
structure WalkEntry where
  fullPath : String
  relPath : String
  content : List (Fin 256)
deriving DecidableEq, Repr

/-- Everything the script observes from its environment: the argument
vector `sys.argv` (element 0 is the program name), `os.path.isdir`, the
`os.walk` file listing (in traversal order, with contents), and the
`mimetypes.guess_type` table. -/
structure Env where
  argv : List String
  isDir : String → Bool
  walk : String → List WalkEntry
  guessType : String → Option String

/-- Observable outcome of a run: exit status, text printed to stdout, and
the files written as (name, full contents) pairs. -/
structure RunOutcome where
  exitCode : Nat
  stdout : String
  written : List (String × String)
deriving DecidableEq, Repr

/-- The `FileEntry` built for one walked file (source lines 99-109). -/
def mkFileEntry (g : String → Option String) (e : WalkEntry) : FileEntry :=
  { relPath := normalizeSlashes e.relPath
    arrayName := to_c_identifier (normalizeSlashes e.relPath)
    mimeType := guess_mime_type g e.fullPath }

/-- The `file_entries` list accumulated over the walk. -/
def fileEntriesOf (env : Env) (folder : String) : List FileEntry :=
  (env.walk folder).map (mkFileEntry env.guessType)

/-- Fixed preamble of the definitions file (source lines 93-94).  Note the
included header name is the fixed literal `embedded_build.h`, not derived
from `output_base`. -/
def cIntro : String :=
  "// Auto-generated embedded files\n\n" ++
  "#include \"embedded_build.h\"\n\n"

/-- Fixed preamble of the header file (source lines 84-90). -/
def hIntro : String :=
  "// Auto-generated header for embedded files\n\n" ++
  "typedef struct \x7b\n" ++
  "    const char *uri;\n" ++
  "    const unsigned char *data;\n" ++
  "    unsigned int length;\n" ++
  "    const char *content_type;\n" ++
  "\x7d embedded_file_t;\n\n"

/-- The two extern lines written to the header per file (lines 106-107). -/
def externPair (array_name : String) : String :=
  "extern const unsigned char " ++ array_name ++ "[];\n" ++
  "extern const unsigned int " ++ array_name ++ "_len;\n"

/-- Trailing externs of the header file (source lines 125-126). -/
def hTail : String :=
  "\nextern embedded_file_t embedded_files[];\n" ++
  "extern int embedded_files_count;\n"

/-- Full contents of the definitions (`.c`) file for a walk listing. -/
def cContents (env : Env) (folder : String) : String :=
  cIntro ++
  strConcat ((env.walk folder).map (fun e =>
    file_to_c_array e.fullPath (to_c_identifier (normalizeSlashes e.relPath))
      e.content)) ++
  tableText (fileEntriesOf env folder) ++
  countLine

/-- Full contents of the header (`.h`) file for a walk listing. -/
def hContents (env : Env) (folder : String) : String :=
  hIntro ++
  strConcat ((fileEntriesOf env folder).map (fun fe => externPair fe.arrayName)) ++
  hTail

/-- The whole script (source lines 27-128) as a function from environment
to outcome: the argument-count check, the input-directory check, then the
generation pass writing `<output_base>.c` and `<output_base>.h` and
printing the success message. -/
def runMain (env : Env) : RunOutcome :=
  if env.argv.length ≠ 3 then
    { exitCode := 1
      stdout := "Usage: " ++ env.argv.getD 0 "" ++ " <input_folder> <output_base>\n"
      written := [] }
  else
    let input_folder := env.argv.getD 1 ""
    let output_base := env.argv.getD 2 ""
    let c_file := output_base ++ ".c"
    let h_file := output_base ++ ".h"
    if env.isDir input_folder = false then
      { exitCode := 1
        stdout := "Error: Folder \x27" ++ input_folder ++ "\x27 not found\n"
        written := [] }
    else
      { exitCode := 0
        stdout := "✅ Generated " ++ c_file ++ " and " ++ h_file ++ "\n"
        written := [(c_file, cContents env input_folder),
                    (h_file, hContents env input_folder)] }

/-! ### Substring search, used to state what an artifact references -/

/-- Whether `pre` is an initial segment of the second list. -/
def startsWith : List Char → List Char → Bool
  | [], _ => true
  | _ :: _, [] => false
  | a :: as, b :: bs => a == b && startsWith as bs

/-- Whether `needle` occurs contiguously anywhere in the haystack. -/
def containsSub (needle : List Char) : List Char → Bool
  | [] => startsWith needle []
  | c :: t => startsWith needle (c :: t) || containsSub needle t

/-! ### Helper lemmas for the claims -/

theorem append_empty_str (s : String) : s ++ "" = s := by
  cases s with
  | mk l => exact congrArg String.mk (List.append_nil l)

/-- The row count contributed by the table loop: one row per entry plus one
per entry whose relative path is exactly `index.html`. -/
theorem tableRows_length (fes : List FileEntry) :
    (tableRows fes).length =
      fes.length + fes.countP (fun fe => decide (fe.relPath = "index.html")) := by
  induction fes with
  | nil => rfl
  | cons fe rest ih =>
      by_cases h : fe.relPath = "index.html" <;>
        simp [tableRows, rowsFor, List.countP_cons, h] at * <;> omega

/-! ## The claims -/

/-- C1: for every input byte sequence (and hence every input file), decoding
the hex-escape string literal emitted by `file_to_c_array` — its quoted
lines `hexLines`/`lineText`, concatenated by `strConcat` inside
`file_to_c_array` — yields exactly the original bytes, and the value
`arrayLen` rendered into the `<symbol>_len` constant equals the exact byte
count. -/
theorem hex_literal_roundtrip (data : List (Fin 256)) :
    decodeLiteral ((hexLines data).map lineText) = some (data.map Fin.val) ∧
    arrayLen data = (data.map Fin.val).length := by
  refine ⟨?_, by simp [arrayLen]⟩
  rw [decodeLiteral_lines, hexLines_join]

/-- C3: for every table entry, a second row with path `/` is synthesized if
and only if the entry's relative path (as computed against the input root
and normalized) equals the literal string `index.html`, and that alias row
carries the same symbol, the same length reference and the same
content-type string as the primary `/index.html` row. -/
theorem alias_row_spec (fe : FileEntry) :
    rowsFor fe =
      (if fe.relPath = "index.html" then
        [primaryRow fe,
         { uri := "/"
           sym := (primaryRow fe).sym
           lenRef := (primaryRow fe).lenRef
           contentType := (primaryRow fe).contentType }]
       else [primaryRow fe]) := by
  by_cases h : fe.relPath = "index.html" <;> simp [rowsFor, primaryRow, h]

/-- C5: the sanitization `to_c_identifier` replaces each occurrence of `/`,
`\`, `-` and `.` by `_`, leaves every other character unchanged, and so its
result contains none of those four characters. -/
theorem to_c_identifier_spec (path : String) :
    (to_c_identifier path).data =
      path.data.map (fun c =>
        if c = '/' ∨ c = '\\' ∨ c = '-' ∨ c = '.' then '_' else c) ∧
    ∀ c ∈ (to_c_identifier path).data,
      c ≠ '/' ∧ c ≠ '\\' ∧ c ≠ '-' ∧ c ≠ '.' := by
  have hmap : ∀ c : Char,
      (if (if (if (if c = '/' then '_' else c) = '\\' then '_'
            else (if c = '/' then '_' else c)) = '-' then '_'
          else (if (if c = '/' then '_' else c) = '\\' then '_'
            else (if c = '/' then '_' else c))) = '.' then '_'
        else (if (if (if c = '/' then '_' else c) = '\\' then '_'
            else (if c = '/' then '_' else c)) = '-' then '_'
          else (if (if c = '/' then '_' else c) = '\\' then '_'
            else (if c = '/' then '_' else c)))) =
      (if c = '/' ∨ c = '\\' ∨ c = '-' ∨ c = '.' then '_' else c) := by
    intro c
    by_cases h1 : c = '/'
    · subst h1; decide
    · by_cases h2 : c = '\\'
      · subst h2; decide
      · by_cases h3 : c = '-'
        · subst h3; decide
        · by_cases h4 : c = '.'
          · subst h4; decide
          · simp [h1, h2, h3, h4]
  have hdata : (to_c_identifier path).data =
      path.data.map (fun c =>
        if c = '/' ∨ c = '\\' ∨ c = '-' ∨ c = '.' then '_' else c) := by
    show (replaceChar '.' '_'
      (replaceChar '-' '_'
        (replaceChar '\\' '_'
          (replaceChar '/' '_' path.data)))) = _
    simp only [replaceChar, List.map_map]
    exact List.map_congr_left (fun c _ => hmap c)
  refine ⟨hdata, ?_⟩
  intro c hc
  rw [hdata] at hc
  rcases List.mem_map.mp hc with ⟨a, _, rfl⟩
  by_cases h : a = '/' ∨ a = '\\' ∨ a = '-' ∨ a = '.'
  · rw [if_pos h]; decide
  · rw [if_neg h]
    push_neg at h
    exact h

/-- C6: the emitted literal groups the escapes into quoted segments of
exactly 16 bytes each (every segment but the last is full), one segment per
line, a final partial segment appearing only when non-empty (every emitted
segment is non-empty and at most 16 bytes, and together they carry exactly
the input bytes); a zero-byte input yields no segments at all and a length
constant of `0`. -/
theorem hex_grouping (data : List (Fin 256)) :
    (∀ l ∈ (hexLines data).dropLast, l.length = 16) ∧
    (∀ l ∈ hexLines data, 0 < l.length ∧ l.length ≤ 16) ∧
    (hexLines data).flatten = data ∧
    hexLines ([] : List (Fin 256)) = [] ∧
    arrayLen ([] : List (Fin 256)) = 0 :=
  ⟨hexLinesGo_full data 0 [] (by simp),
   hexLinesGo_sizes data 0 [] (by simp),
   hexLines_join data, rfl, rfl⟩

/-- C2: for a non-empty walk listing, the emitted count — the value of the
`sizeof` quotient, i.e. the element count of the `embedded_files`
initializer — equals the number of table rows, which equals the number of
discovered files plus one extra row for each discovered file whose
(normalized) relative path is exactly `index.html`. -/
theorem table_count (env : Env) (folder : String) (_h : env.walk folder ≠ []) :
    embedded_files_count (fileEntriesOf env folder) =
      (tableRows (fileEntriesOf env folder)).length ∧
    (tableRows (fileEntriesOf env folder)).length =
      (env.walk folder).length +
        (env.walk folder).countP
          (fun e => decide (normalizeSlashes e.relPath = "index.html")) := by
  refine ⟨rfl, ?_⟩
  rw [tableRows_length]
  simp only [fileEntriesOf, List.countP_map, List.length_map]
  rfl

def envC2 : Env :=
  { argv := ["./folder_to_carray.py", "site", "embedded_build"]
    isDir := fun _ => true
    walk := fun _ =>
      [{ fullPath := "site/index.html", relPath := "index.html", content := [] },
       { fullPath := "site/style.css", relPath := "style.css", content := [] }]
    guessType := fun _ => none }

theorem table_count_witness :
    envC2.walk "site" ≠ [] ∧
    (embedded_files_count (fileEntriesOf envC2 "site") =
        (tableRows (fileEntriesOf envC2 "site")).length ∧
      (tableRows (fileEntriesOf envC2 "site")).length =
        (envC2.walk "site").length +
          (envC2.walk "site").countP
            (fun e => decide (normalizeSlashes e.relPath = "index.html"))) :=
  ⟨by decide, table_count envC2 "site" (by decide)⟩

def envC4 : Env :=
  { argv := ["./folder_to_carray.py", "site", "out"]
    isDir := fun _ => true
    walk := fun _ =>
      [{ fullPath := "site/app.js", relPath := "app.js",
         content := [(104 : Fin 256)] }]
    guessType := fun _ => none }

set_option maxRecDepth 16384 in
/-- C4 (code bug): invoked with output base `out` on a directory holding
one file, the script writes `out.c` and `out.h`, yet the definitions
artifact `out.c` contains the fixed text `embedded_build.h` (its
`#include`) and nowhere references `out.h`, the declarations artifact
actually generated next to it. -/
theorem include_ignores_output_base :
    (runMain envC4).written.map Prod.fst = ["out.c", "out.h"] ∧
    containsSub "embedded_build.h".data
      ((runMain envC4).written.getD 0 ("", "")).2.data = true ∧
    containsSub "out.h".data
      ((runMain envC4).written.getD 0 ("", "")).2.data = false := by
  refine ⟨by decide, by decide, by decide⟩

/-- C7: with any argument vector not holding exactly two positional
arguments (`sys.argv` length different from 3, element 0 being the program
name), the script prints the usage message, exits with status 1, and writes
no file. -/
theorem usage_error (env : Env) (h : env.argv.length ≠ 3) :
    runMain env =
      { exitCode := 1
        stdout := "Usage: " ++ env.argv.getD 0 "" ++
          " <input_folder> <output_base>\n"
        written := [] } := by
  simp [runMain, h]

def envC7 : Env :=
  { argv := ["./folder_to_carray.py", "site"]
    isDir := fun _ => true
    walk := fun _ => []
    guessType := fun _ => none }

theorem usage_error_witness :
    runMain envC7 =
      { exitCode := 1
        stdout := "Usage: ./folder_to_carray.py <input_folder> <output_base>\n"
        written := [] } := by
  rw [usage_error envC7 (by decide)]
  decide

/-- C8: with exactly two positional arguments but an input folder that is
not a directory, the script reports the folder as not found, exits with
status 1, and writes and opens no output file at all. -/
theorem missing_folder_error (env : Env) (a0 a1 a2 : String)
    (ha : env.argv = [a0, a1, a2]) (hd : env.isDir a1 = false) :
    runMain env =
      { exitCode := 1
        stdout := "Error: Folder \x27" ++ a1 ++ "\x27 not found\n"
        written := [] } := by
  simp [runMain, ha, hd]

def envC8 : Env :=
  { argv := ["./folder_to_carray.py", "nosuch", "out"]
    isDir := fun _ => false
    walk := fun _ => []
    guessType := fun _ => none }

theorem missing_folder_error_witness :
    runMain envC8 =
      { exitCode := 1
        stdout := "Error: Folder \x27nosuch\x27 not found\n"
        written := [] } := by
  rw [missing_folder_error envC8 "./folder_to_carray.py" "nosuch" "out" rfl rfl]
  decide

/-- C9: two runs over environments that agree on the argument vector, on
the directory check, on the walk listing (same traversal order and same
file contents) and on the mime table produce identical outcomes — the
model embeds no clock, randomness or any other input, so the artifacts are
byte-identical across runs. -/
theorem run_deterministic (e₁ e₂ : Env) (ha : e₁.argv = e₂.argv)
    (hd : ∀ p, e₁.isDir p = e₂.isDir p)
    (hw : ∀ p, e₁.walk p = e₂.walk p)
    (hg : ∀ p, e₁.guessType p = e₂.guessType p) :
    runMain e₁ = runMain e₂ := by
  have h1 : e₁ = e₂ := by
    cases e₁; cases e₂
    simp only [Env.mk.injEq]
    exact ⟨ha, funext hd, funext hw, funext hg⟩
  rw [h1]

def envC9a : Env :=
  { argv := ["./folder_to_carray.py", "site", "embedded_build"]
    isDir := fun _ => true
    walk := fun _ =>
      [{ fullPath := "site/index.html", relPath := "index.html",
         content := [(60 : Fin 256)] }]
    guessType := fun _ => some "text/html" }

def envC9b : Env :=
  { argv := ["./folder_to_carray.py", "site", "embedded_build"]
    isDir := fun _p => true
    walk := fun _p =>
      [{ fullPath := "site/index.html", relPath := "index.html",
         content := [(60 : Fin 256)] }]
    guessType := fun _p => some "text/html" }

theorem run_deterministic_witness : runMain envC9a = runMain envC9b :=
  run_deterministic envC9a envC9b rfl (fun _ => rfl) (fun _ => rfl)
    (fun _ => rfl)

/-- C10: on an existing input directory whose walk yields no file at all,
the script still succeeds: exit status 0, both artifacts written — the
definitions file holding a zero-row table literal followed by the count
expression, the header holding only its fixed parts — and the success
message printed; the assembled table has zero rows. -/
theorem empty_dir_success (env : Env) (a0 a1 a2 : String)
    (ha : env.argv = [a0, a1, a2]) (hd : env.isDir a1 = true)
    (hw : env.walk a1 = []) :
    runMain env =
      { exitCode := 0
        stdout := "✅ Generated " ++ (a2 ++ ".c") ++ " and " ++
          (a2 ++ ".h") ++ "\n"
        written :=
          [(a2 ++ ".c", cIntro ++ tableText [] ++ countLine),
           (a2 ++ ".h", hIntro ++ hTail)] } ∧
    tableRows (fileEntriesOf env a1) = [] := by
  constructor
  · simp [runMain, ha, hd, cContents, hContents, fileEntriesOf, hw,
      strConcat, append_empty_str]
  · simp [tableRows, fileEntriesOf, hw]

def envC10 : Env :=
  { argv := ["./folder_to_carray.py", "empty", "embedded_build"]
    isDir := fun _ => true
    walk := fun _ => []
    guessType := fun _ => none }

theorem empty_dir_success_witness :
    runMain envC10 =
      { exitCode := 0
        stdout := "✅ Generated embedded_build.c and embedded_build.h\n"
        written :=
          [("embedded_build.c", cIntro ++ tableText [] ++ countLine),
           ("embedded_build.h", hIntro ++ hTail)] } ∧
    tableRows (fileEntriesOf envC10 "empty") = [] := by
  have h := empty_dir_success envC10 "./folder_to_carray.py" "empty"
    "embedded_build" rfl rfl rfl
  exact ⟨h.1, h.2⟩

end FolderToCArray
